import Mathlib

/-!
# WalkMate backend — verification of the derived-computation routines

Shallow embedding of the WalkMate backend's algorithmic core:

* `src/server/utils/dateUtils.ts` — calendar helpers (`startOfWeek`,
  `endOfWeek`, `formatDateToYYYYMMDD`);
* `src/server/services/dbService.ts` — `getUserStreak`,
  `getUserWeeklyReport`, `createUser`, `createWalkWithTransaction`;
* `src/server/controllers/walkController.ts` — `createWalk`, `getWalkStats`;
* `src/server/middleware/validation.ts` — `validateRequest`.

Modelling conventions:

* A JavaScript `Date` is its epoch timestamp in milliseconds, an `Int`.
  The server's local time zone is taken to coincide with UTC (the source
  mixes `toISOString` (UTC) with local-midnight arithmetic; under the
  spec's stated "same time zone convention on both paths" assumption the
  two coincide, with no daylight-saving shifts).
* `formatDateToYYYYMMDD` returns the string `YYYY-MM-DD` of the UTC
  calendar day; the string is in bijection with the epoch-day number and
  lexicographic order on such strings agrees with numeric order on days,
  so the model returns the epoch-day number (an `Int`) directly.
* JavaScript numbers are modelled as `ℚ` (exact arithmetic; `steps`,
  `distance`, `duration` are finite non-NaN numbers in every behaviour
  the claims quantify over).
-/

namespace WalkMate

/-- Milliseconds in one day. -/
def msPerDay : Int := 86400000

/-- The UTC calendar day (days since the epoch) containing a millisecond
timestamp.  `Int.ediv` is floor division for the positive divisor
`msPerDay`, matching JavaScript's date arithmetic. -/
def epochDay (t : Int) : Int := t / msPerDay

/-- `Date.getDay()`: day of week, 0 = Sunday.  Epoch day 0 (1970-01-01)
was a Thursday, hence the offset 4.  `Int.emod` with modulus 7 lands in
`[0, 7)` as `getDay` does. -/
def getDay (t : Int) : Int := (epochDay t + 4) % 7

/-- `startOfDay` from `dateUtils.ts`: midnight of the timestamp's day. -/
def startOfDay (t : Int) : Int := epochDay t * msPerDay

/-- `endOfDay` from `dateUtils.ts`: 23:59:59.999 of the timestamp's day. -/
def endOfDay (t : Int) : Int := epochDay t * msPerDay + (msPerDay - 1)

/-- `startOfWeek` from `dateUtils.ts`: go back `getDay` days (to Sunday),
then take the start of that day. -/
def startOfWeek (t : Int) : Int := (epochDay t - getDay t) * msPerDay

/-- `endOfWeek` from `dateUtils.ts`: go forward `6 - getDay` days (to
Saturday), then take the end of that day. -/
def endOfWeek (t : Int) : Int := (epochDay t + (6 - getDay t)) * msPerDay + (msPerDay - 1)

/-- `formatDateToYYYYMMDD` from `dateUtils.ts`: the `YYYY-MM-DD` part of
`toISOString()`, i.e. the UTC calendar day, modelled as its epoch-day
number. -/
def formatDateToYYYYMMDD (t : Int) : Int := epochDay t

/-- A row of the `Walk` table (the fields the computations read). -/
structure Walk where
  id : String
  steps : ℚ
  distance : ℚ
  duration : ℚ
  date : Int
  userId : String
deriving DecidableEq

/-- A row of the `User` table (the fields the computations read). -/
structure User where
  id : String
  name : String
  goalType : String
  goalValue : ℚ
deriving DecidableEq

/-! ## Streak calculator (`dbService.getUserStreak`) -/

/-- The distinct walk days: `walkDates` in `getUserStreak` (a JS `Set` of
`formatDateToYYYYMMDD` keys), as a deduplicated list; its order is
irrelevant because the code sorts before use. -/
def walkDateKeys (walks : List Walk) : List Int :=
  (walks.map (fun w => formatDateToYYYYMMDD w.date)).dedup

/-- The set of distinct walk days, for stating properties. -/
def walkDates (walks : List Walk) : Finset Int :=
  (walks.map (fun w => formatDateToYYYYMMDD w.date)).toFinset

/-- `Array.from(walkDates).sort().reverse()`: the distinct walk days in
descending order (string sort on `YYYY-MM-DD` keys agrees with numeric
order on epoch days). -/
def sortedDates (walks : List Walk) : List Int :=
  (List.insertionSort (· ≤ ·) (walkDateKeys walks)).reverse

/-- The counting loop of `getUserStreak`: starting from the most recent
day `cur` with count `streak`, add 1 for each next sorted day exactly one
day before the previously counted day, and stop at the first larger gap. -/
def countStreak : Int → List Int → Nat → Nat
  | _, [], streak => streak
  | cur, d :: rest, streak =>
      if d = cur - 1 then countStreak d rest (streak + 1) else streak

/-- `dbService.getUserStreak`, with the ambient `new Date()` threaded as
the explicit reference day `today` (an epoch-day number, the code's local
midnight of "now").  `yesterday` is `today - 1`; the guard
`mostRecentWalkDate < yesterday` becomes `mostRecent < today - 1`. -/
def getUserStreak (walks : List Walk) (today : Int) : Nat :=
  if walks.isEmpty then 0
  else
    match sortedDates walks with
    | [] => 0
    | mostRecent :: rest =>
        if mostRecent < today - 1 then 0
        else countStreak mostRecent rest 1

/-! ## Weekly report builder (`dbService.getUserWeeklyReport`) -/

/-- The walk selection of `getUserWeeklyReport`: the Prisma query
`date: { gte: startDate, lte: endDate }` with
`startDate = startOfWeek(anchor)` and `endDate = endOfWeek(startDate)`. -/
def selectWeekWalks (walks : List Walk) (anchor : Int) : List Walk :=
  walks.filter (fun w =>
    decide (startOfWeek anchor ≤ w.date ∧ w.date ≤ endOfWeek (startOfWeek anchor)))

/-- One entry of `dailyData` in `getUserWeeklyReport`. -/
structure DayBucket where
  date : Int
  steps : ℚ
  distance : ℚ
  duration : ℚ
  goalMet : Bool
deriving DecidableEq, Inhabited

/-- The seven `dateKey`s the report initialises: the calendar days
`weekStart .. weekStart + 6` (the loop `for i in 0..6` over
`formatDateToYYYYMMDD(startDate + i days)`). -/
def weekDayKeys (startDate : Int) : List Int :=
  (List.range 7).map (fun i => epochDay startDate + i)

/-- The body of the walk-accumulation loop for one walk landing in bucket
`b`: add the walk's metrics, then set `goalMet` when the running total
reaches the goal (`goalMet` is only ever set, never cleared). -/
def addWalkToBucket (user : User) (b : DayBucket) (w : Walk) : DayBucket :=
  let b1 : DayBucket := { b with
    steps := b.steps + w.steps,
    distance := b.distance + w.distance,
    duration := b.duration + w.duration }
  if user.goalType = "steps" ∧ user.goalValue ≤ b1.steps then
    { b1 with goalMet := true }
  else if user.goalType = "distance" ∧ user.goalValue ≤ b1.distance then
    { b1 with goalMet := true }
  else b1

/-- The walk-accumulation loop of `getUserWeeklyReport`: walks whose
`dateKey` matches an initialised bucket are accumulated there; others are
silently dropped (`if (dailyData[dateKey])`). -/
def processWalks (user : User) (keys : List Int) (walks : List Walk)
    (daily : Int → DayBucket) : Int → DayBucket :=
  walks.foldl (fun f w =>
    let k := formatDateToYYYYMMDD w.date
    if k ∈ keys then
      fun d => if d = k then addWalkToBucket user (f k) w else f d
    else f) daily

/-- `weeklyTotals` of the report. -/
structure WeeklyTotals where
  totalSteps : ℚ
  totalDistance : ℚ
  totalDuration : ℚ
  daysActive : Nat
  daysGoalMet : Nat
deriving DecidableEq

/-- The shape returned by `getUserWeeklyReport` (`startDate`/`endDate` as
their `YYYY-MM-DD` day numbers). -/
structure WeeklyReport where
  startDate : Int
  endDate : Int
  dailyData : List DayBucket
  weeklyTotals : WeeklyTotals
deriving DecidableEq

/-- `dbService.getUserWeeklyReport` for an already-fetched user row, the
user's walks, and the anchor date (`weekStartDate`, defaulting to "now"
at the caller). -/
def getUserWeeklyReport (user : User) (walks : List Walk) (anchor : Int) :
    WeeklyReport :=
  let startDate := startOfWeek anchor
  let endDate := endOfWeek startDate
  let keys := weekDayKeys startDate
  let daily := processWalks user keys (selectWeekWalks walks anchor)
    (fun d => ⟨d, 0, 0, 0, false⟩)
  let buckets := keys.map daily
  { startDate := formatDateToYYYYMMDD startDate,
    endDate := formatDateToYYYYMMDD endDate,
    dailyData := buckets,
    weeklyTotals := buckets.foldl (fun tot day =>
      { totalSteps := tot.totalSteps + day.steps,
        totalDistance := tot.totalDistance + day.distance,
        totalDuration := tot.totalDuration + day.duration,
        daysActive := tot.daysActive +
          (if (0 : ℚ) < day.steps ∨ (0 : ℚ) < day.distance ∨ (0 : ℚ) < day.duration
            then 1 else 0),
        daysGoalMet := tot.daysGoalMet + (if day.goalMet then 1 else 0) })
      ⟨0, 0, 0, 0, 0⟩ }

/-! ## Aggregate stats (`walkController.getWalkStats`) -/

/-- `Rat.floor`, spelled out so that it participates in kernel reduction:
the floor of `q` is `q.num` divided (flooring) by the positive `q.den`. -/
def ratFloor (q : ℚ) : Int := q.num.fdiv q.den

/-- JavaScript `Math.round`: round to the nearest integer, halves toward
positive infinity, i.e. `⌊x + 1/2⌋`. -/
def jsRound (x : ℚ) : Int := ratFloor (x + 1 / 2)

/-- JavaScript `Number(x.toFixed(2))`: round to two decimal places,
halves toward the larger candidate. -/
def toFixed2 (x : ℚ) : ℚ := (jsRound (x * 100) : ℚ) / 100

/-- `dbService.getWalksByDateRange`: the Prisma query
`date: { gte: startDate, lt: endDate }` (half-open). -/
def getWalksByDateRange (walks : List Walk) (startDate endDate : Int) :
    List Walk :=
  walks.filter (fun w => decide (startDate ≤ w.date ∧ w.date < endDate))

/-- The stats object assembled by `walkController.getWalkStats`. -/
structure WalkStats where
  totalWalks : Nat
  totalSteps : ℚ
  totalDistance : ℚ
  totalDuration : ℚ
  averageStepsPerWalk : ℚ
  averageDistancePerWalk : ℚ
  averageDurationPerWalk : ℚ
  startDate : Int
  endDate : Int
deriving DecidableEq

/-- `walkController.getWalkStats` over the user's walks and a resolved
date range: fetch the walks in `[start, finish)`, initialise the stats
with zeros, and if any walk exists accumulate totals and set the averages
(`Math.round(total/count)` for steps and duration,
`Number((total/count).toFixed(2))` for distance). -/
def getWalkStats (allWalks : List Walk) (start finish : Int) : WalkStats :=
  let walks := getWalksByDateRange allWalks start finish
  let base : WalkStats :=
    ⟨walks.length, 0, 0, 0, 0, 0, 0,
      formatDateToYYYYMMDD start, formatDateToYYYYMMDD finish⟩
  if 0 < walks.length then
    let totalSteps := (walks.map Walk.steps).sum
    let totalDistance := (walks.map Walk.distance).sum
    let totalDuration := (walks.map Walk.duration).sum
    { base with
      totalSteps := totalSteps,
      totalDistance := totalDistance,
      totalDuration := totalDuration,
      averageStepsPerWalk := (jsRound (totalSteps / (walks.length : ℚ)) : ℚ),
      averageDistancePerWalk := toFixed2 (totalDistance / (walks.length : ℚ)),
      averageDurationPerWalk := (jsRound (totalDuration / (walks.length : ℚ)) : ℚ) }
  else base

/-! ## Walk creation (`walkController.createWalk` over the store) -/

/-- The persisted state the walk-creation path reads and writes. -/
structure Store where
  users : List User
  walks : List Walk
deriving DecidableEq

/-- `dbService.getUserById`: `user.findUnique({ where: { id } })`. -/
def getUserById (s : Store) (id : String) : Option User :=
  s.users.find? (fun u => u.id == id)

/-- The body of a walk-creation request. -/
structure CreateWalkRequest where
  userId : String
  steps : ℚ
  distance : ℚ
  duration : ℚ
  date : Int
deriving DecidableEq

/-- The responses `walkController.createWalk` can produce on the paths
the embedding covers: 404 `User not found`, or 201 with the new row. -/
inductive CreateWalkResponse
  | notFound
  | created (walk : Walk)
deriving DecidableEq

/-- The HTTP status of a walk-creation response. -/
def CreateWalkResponse.status : CreateWalkResponse → Nat
  | .notFound => 404
  | .created _ => 201

/-- `walkController.createWalk` composed with the store: look up the
owner; on a miss respond 404 without touching the store, otherwise insert
the new walk row (its id generated by the store). -/
def createWalk (s : Store) (req : CreateWalkRequest) (newId : String) :
    CreateWalkResponse × Store :=
  match getUserById s req.userId with
  | none => (.notFound, s)
  | some _ =>
      let w : Walk :=
        ⟨newId, req.steps, req.distance, req.duration, req.date, req.userId⟩
      (.created w, { s with walks := s.walks ++ [w] })

/-! ## Validation middleware (`validateRequest`) -/

/-- A request value as the middleware observes it: `undefined`, `null`,
or a present value abstracted by whether it is the empty string, its
`Number(...)` coercion (`none` means `NaN`), and whether `new Date(...)`
parses to a valid date. -/
inductive JSValue
  | undefined
  | null
  | value (isEmptyString : Bool) (toNumber : Option ℚ) (isValidDate : Bool)
deriving DecidableEq

/-- One field's entry in a `ValidationRules` object. -/
structure FieldRule where
  required : Bool
  type : Option String
  min : Option ℚ
  max : Option ℚ
deriving DecidableEq

/-- The per-field body of the validation loop: the errors pushed for one
field (the loop's early `return`s end only that field's checks). -/
def fieldErrors (field : String) (rule : FieldRule) (v : JSValue) :
    List String :=
  match v with
  | .undefined => if rule.required then [field ++ " is required"] else []
  | .null => if rule.required then [field ++ " is required"] else []
  | .value isEmptyString toNumber isValidDate =>
      if rule.required && isEmptyString then [field ++ " is required"]
      else
        match rule.type with
        | some "number" =>
            match toNumber with
            | none => [field ++ " must be a number"]
            | some n =>
                (match rule.min with
                 | some m =>
                     if n < m then [field ++ " must be at least " ++ toString m]
                     else []
                 | none => []) ++
                (match rule.max with
                 | some m =>
                     if m < n then [field ++ " must be at most " ++ toString m]
                     else []
                 | none => [])
        | some "date" =>
            if isValidDate then [] else [field ++ " must be a valid date"]
        | _ => []

/-- `validateRequest`: run every field's checks, accumulating the errors
across all fields; reject with the full list iff any check failed. -/
def validateRequest (rules : List (String × FieldRule))
    (data : String → JSValue) : Except (List String) Unit :=
  let errors := rules.flatMap (fun fr => fieldErrors fr.1 fr.2 (data fr.1))
  if errors.isEmpty then .ok () else .error errors

/-! ## User creation (`dbService.createUser`) -/

/-- The payload of `dbService.createUser` (`goalType` and `goalValue`
optional). -/
structure CreateUserData where
  name : String
  goalType : Option String
  goalValue : Option ℚ
deriving DecidableEq

/-- `dbService.createUser`: apply the falsy-or defaults
(`data.goalType || 'steps'`, `data.goalValue || 10000`).  The falsy
string is `''`; the falsy finite number is `0`. -/
def createUser (d : CreateUserData) (newId : String) : User :=
  { id := newId,
    name := d.name,
    goalType :=
      match d.goalType with
      | none => "steps"
      | some t => if t = "" then "steps" else t,
    goalValue :=
      match d.goalValue with
      | none => 10000
      | some v => if v = 0 then 10000 else v }

/-! ## Concrete inputs used by the witnesses -/

/-- A walk at midnight of epoch day `d`, for concrete instantiations. -/
def walkOnDay (id : String) (d : Int) : Walk :=
  ⟨id, 5000, 3, 45, d * msPerDay, "user-1"⟩

/-- A walk at millisecond timestamp `t`, for concrete instantiations. -/
def walkAtMs (id : String) (t : Int) : Walk :=
  ⟨id, 5000, 3, 45, t, "user-1"⟩

/-- The walk-creation validation rules registered in `walkRoutes.ts`
(`POST /`). -/
def createWalkRules : List (String × FieldRule) :=
  [("userId", ⟨true, some "string", none, none⟩),
   ("steps", ⟨true, some "number", some 0, none⟩),
   ("distance", ⟨true, some "number", some 0, none⟩),
   ("duration", ⟨true, some "number", some 0, none⟩),
   ("date", ⟨true, some "date", none, none⟩)]

/-- A concrete invalid walk-creation body: `steps` is negative and `date`
does not parse, while the other fields are fine. -/
def badWalkRequestData : String → JSValue := fun field =>
  if field = "steps" then .value false (some (-5)) true
  else if field = "date" then .value false none false
  else .value false (some 1) true

end WalkMate

namespace WalkMate

/-! ### Basic facts about the sorted day list -/

/-- The counting loop never returns less than its accumulator. -/
lemma countStreak_ge (cur : Int) (l : List Int) (streak : Nat) :
    streak ≤ countStreak cur l streak := by
  induction l generalizing cur streak with
  | nil => simp [countStreak]
  | cons d rest ih =>
      simp only [countStreak]
      split
      · exact le_trans (Nat.le_succ streak) (ih d (streak + 1))
      · exact le_rfl

/-- Membership in `sortedDates`. -/
lemma mem_sortedDates {walks : List Walk} {d : Int} :
    d ∈ sortedDates walks ↔ d ∈ walkDates walks := by
  simp [sortedDates, walkDateKeys, walkDates, List.mem_insertionSort, List.mem_dedup]

/-- `sortedDates` has no duplicate days. -/
lemma sortedDates_nodup (walks : List Walk) : (sortedDates walks).Nodup := by
  have h : (List.insertionSort (· ≤ ·) (walkDateKeys walks)).Nodup :=
    ((List.perm_insertionSort _ _).nodup_iff).mpr (List.nodup_dedup _)
  simpa [sortedDates] using h

/-- `sortedDates` is sorted in (strictly) descending order. -/
lemma sortedDates_sorted_gt (walks : List Walk) :
    (sortedDates walks).Sorted (· > ·) := by
  have hle : (List.insertionSort (· ≤ ·) (walkDateKeys walks)).Sorted (· ≤ ·) :=
    List.sorted_insertionSort _ _
  have hnd : (List.insertionSort (· ≤ ·) (walkDateKeys walks)).Nodup :=
    ((List.perm_insertionSort _ _).nodup_iff).mpr (List.nodup_dedup _)
  have hlt := hle.lt_of_le hnd
  simpa [sortedDates, List.Sorted, List.pairwise_reverse] using hlt

/-- The head of `sortedDates` bounds every distinct walk day from above. -/
lemma head_sortedDates_max {walks : List Walk} {m : Int} {rest : List Int}
    (h : sortedDates walks = m :: rest) :
    ∀ d ∈ walkDates walks, d ≤ m := by
  intro d hd
  have hmem : d ∈ sortedDates walks := mem_sortedDates.mpr hd
  rw [h] at hmem
  rcases List.mem_cons.mp hmem with hdm | hdr
  · exact le_of_eq hdm
  · have hs := sortedDates_sorted_gt walks
    rw [h] at hs
    have := (List.sorted_cons.mp hs).1 d hdr
    exact le_of_lt this

/-- The head of `sortedDates` is itself a walk day. -/
lemma head_sortedDates_mem {walks : List Walk} {m : Int} {rest : List Int}
    (h : sortedDates walks = m :: rest) : m ∈ walkDates walks := by
  have : m ∈ sortedDates walks := by rw [h]; simp
  exact mem_sortedDates.mp this

/-- A nonempty walk list has a nonempty `sortedDates`. -/
lemma sortedDates_ne_nil {walks : List Walk} (h : walks ≠ []) :
    sortedDates walks ≠ [] := by
  intro hnil
  cases walks with
  | nil => exact h rfl
  | cons w ws =>
      have hmem : formatDateToYYYYMMDD w.date ∈ walkDates (w :: ws) := by
        simp [walkDates]
      have : formatDateToYYYYMMDD w.date ∈ sortedDates (w :: ws) :=
        mem_sortedDates.mpr hmem
      rw [hnil] at this
      exact List.not_mem_nil _ this

/-- Characterisation of the distinct walk days. -/
lemma mem_walkDates {walks : List Walk} {d : Int} :
    d ∈ walkDates walks ↔ ∃ w ∈ walks, formatDateToYYYYMMDD w.date = d := by
  simp [walkDates]

/-- `sortedDates` is the unique duplicate-free strictly descending
enumeration of the distinct walk days. -/
lemma sortedDates_eq {walks : List Walk} {l : List Int}
    (hnd : l.Nodup) (hsort : l.Sorted (· > ·))
    (hmem : ∀ x, x ∈ l ↔ x ∈ walkDates walks) :
    sortedDates walks = l := by
  haveI : IsAntisymm Int (· ≥ ·) := ⟨fun a b h1 h2 => le_antisymm h2 h1⟩
  have hperm : List.Perm (sortedDates walks) l := by
    apply List.perm_of_nodup_nodup_toFinset_eq (sortedDates_nodup walks) hnd
    ext x
    simp only [List.mem_toFinset, mem_sortedDates, hmem]
  exact List.eq_of_perm_of_sorted hperm
    (sortedDates_sorted_gt walks).ge_of_gt hsort.ge_of_gt

/-- The streak only depends on the set of distinct walk days. -/
lemma sortedDates_congr {walks walks' : List Walk}
    (h : walkDates walks = walkDates walks') :
    sortedDates walks = sortedDates walks' :=
  sortedDates_eq (sortedDates_nodup walks') (sortedDates_sorted_gt walks')
    (fun x => by rw [mem_sortedDates, h])

/-! ### Claim theorems about the streak calculator -/

/-- Claim C1 (grace-period policy): for every non-empty list of walks, if
the most recent walk day is exactly `today - 1` (and no walk falls on
`today`), `getUserStreak` is nonzero; and if every walk day is at least
two days before `today`, `getUserStreak` is 0. -/
theorem streak_grace_period (walks : List Walk) (today : Int) :
    (walks ≠ [] →
      (∀ w ∈ walks, formatDateToYYYYMMDD w.date ≤ today - 1) →
      (∃ w ∈ walks, formatDateToYYYYMMDD w.date = today - 1) →
      getUserStreak walks today ≠ 0) ∧
    (walks ≠ [] →
      (∀ w ∈ walks, formatDateToYYYYMMDD w.date ≤ today - 2) →
      getUserStreak walks today = 0) := by
  constructor
  · intro hne hub hex
    have hisEmpty : walks.isEmpty = false := by
      simpa [List.isEmpty_iff] using hne
    obtain ⟨m, rest, hs⟩ := List.exists_cons_of_ne_nil (sortedDates_ne_nil hne)
    have hmle : m ≤ today - 1 := by
      obtain ⟨w, hw, hwd⟩ := mem_walkDates.mp (head_sortedDates_mem hs)
      rw [← hwd]; exact hub w hw
    have hmge : today - 1 ≤ m := by
      obtain ⟨w, hw, hwd⟩ := hex
      exact head_sortedDates_max hs _ (mem_walkDates.mpr ⟨w, hw, hwd⟩)
    have hm : m = today - 1 := le_antisymm hmle hmge
    have hguard : ¬ m < today - 1 := by omega
    have hcount : 1 ≤ countStreak m rest 1 := countStreak_ge m rest 1
    simp only [getUserStreak, hisEmpty, Bool.false_eq_true, if_false, hs]
    rw [if_neg hguard]
    omega
  · intro hne hub
    have hisEmpty : walks.isEmpty = false := by
      simpa [List.isEmpty_iff] using hne
    obtain ⟨m, rest, hs⟩ := List.exists_cons_of_ne_nil (sortedDates_ne_nil hne)
    have hmle : m ≤ today - 2 := by
      obtain ⟨w, hw, hwd⟩ := mem_walkDates.mp (head_sortedDates_mem hs)
      rw [← hwd]; exact hub w hw
    simp only [getUserStreak, hisEmpty, Bool.false_eq_true, if_false, hs]
    rw [if_pos (by omega)]

/-- Claim C9 (future-dated walks): if some walk lies on a calendar day
strictly after `today`, the streak-broken guard (`mostRecent < today - 1`)
does not fire and `getUserStreak` returns at least 1. -/
theorem streak_future_walk (walks : List Walk) (today : Int)
    (h : ∃ w ∈ walks, today < formatDateToYYYYMMDD w.date) :
    1 ≤ getUserStreak walks today := by
  obtain ⟨w, hw, hwd⟩ := h
  have hne : walks ≠ [] := by
    intro hnil; rw [hnil] at hw; exact List.not_mem_nil w hw
  have hisEmpty : walks.isEmpty = false := by
    simpa [List.isEmpty_iff] using hne
  obtain ⟨m, rest, hs⟩ := List.exists_cons_of_ne_nil (sortedDates_ne_nil hne)
  have hmge : today < m :=
    lt_of_lt_of_le hwd (head_sortedDates_max hs _ (mem_walkDates.mpr ⟨w, hw, rfl⟩))
  simp only [getUserStreak, hisEmpty, Bool.false_eq_true, if_false, hs]
  rw [if_neg (by omega)]
  exact countStreak_ge m rest 1

/-- Claim C5 (same-day deduplication): adding a walk whose calendar day
already occurs among the walks leaves the streak unchanged. -/
theorem streak_same_day_dedupe (walks : List Walk) (w : Walk) (today : Int)
    (h : formatDateToYYYYMMDD w.date ∈ walkDates walks) :
    getUserStreak (walks ++ [w]) today = getUserStreak walks today := by
  have hne : walks ≠ [] := by
    intro hnil
    rw [hnil] at h
    simp [walkDates] at h
  have hdates : walkDates (walks ++ [w]) = walkDates walks := by
    ext x
    simp only [mem_walkDates, List.mem_append, List.mem_singleton]
    constructor
    · rintro ⟨w', hw' | hw', hwd⟩
      · exact ⟨w', hw', hwd⟩
      · subst hw'
        rw [← hwd]
        exact mem_walkDates.mp h
    · rintro ⟨w', hw', hwd⟩
      exact ⟨w', Or.inl hw', hwd⟩
  have hsorted : sortedDates (walks ++ [w]) = sortedDates walks :=
    sortedDates_congr hdates
  have hisEmpty : walks.isEmpty = false := by
    simpa [List.isEmpty_iff] using hne
  have hisEmpty' : (walks ++ [w]).isEmpty = false := by
    simp [List.isEmpty_iff, hne]
  simp only [getUserStreak, hisEmpty, hisEmpty', Bool.false_eq_true, if_false, hsorted]

/-- Claim C2 (consecutive-chain counting): distinct walk days exactly
`{D, D-1, D-2}` with `D = today` yield a streak of 3; distinct walk days
exactly `{D, D-2}` (a gap at `D-1`) yield a streak of 1. -/
theorem streak_consecutive_chain (walks : List Walk) (today : Int) :
    (walkDates walks = {today, today - 1, today - 2} →
      getUserStreak walks today = 3) ∧
    (walkDates walks = {today, today - 2} →
      getUserStreak walks today = 1) := by
  constructor
  · intro hdays
    have hne : walks ≠ [] := by
      intro hnil
      rw [hnil] at hdays
      have : today ∈ (∅ : Finset Int) := by
        rw [show (∅ : Finset Int) = walkDates [] by simp [walkDates], hdays]
        simp
      simp at this
    have hisEmpty : walks.isEmpty = false := by
      simpa [List.isEmpty_iff] using hne
    have hs : sortedDates walks = [today, today - 1, today - 2] := by
      apply sortedDates_eq
      · refine List.nodup_cons.mpr ⟨?_, List.nodup_cons.mpr ⟨?_, List.nodup_singleton _⟩⟩
        · intro hmem
          rcases List.mem_cons.mp hmem with h | h
          · omega
          · have := List.mem_singleton.mp h; omega
        · intro hmem
          have := List.mem_singleton.mp hmem; omega
      · refine List.sorted_cons.mpr ⟨?_, List.sorted_cons.mpr ⟨?_, List.sorted_singleton _⟩⟩
        · intro b hb
          rcases List.mem_cons.mp hb with h | h
          · omega
          · have := List.mem_singleton.mp h; omega
        · intro b hb
          have := List.mem_singleton.mp hb; omega
      · intro x
        rw [hdays]
        simp only [List.mem_cons, List.mem_singleton, List.not_mem_nil,
          Finset.mem_insert, Finset.mem_singleton]
        tauto
    simp only [getUserStreak, hisEmpty, Bool.false_eq_true, if_false, hs]
    rw [if_neg (by omega)]
    simp only [countStreak]
    split_ifs <;> omega
  · intro hdays
    have hne : walks ≠ [] := by
      intro hnil
      rw [hnil] at hdays
      have : today ∈ (∅ : Finset Int) := by
        rw [show (∅ : Finset Int) = walkDates [] by simp [walkDates], hdays]
        simp
      simp at this
    have hisEmpty : walks.isEmpty = false := by
      simpa [List.isEmpty_iff] using hne
    have hs : sortedDates walks = [today, today - 2] := by
      apply sortedDates_eq
      · refine List.nodup_cons.mpr ⟨?_, List.nodup_singleton _⟩
        intro hmem
        have := List.mem_singleton.mp hmem; omega
      · refine List.sorted_cons.mpr ⟨?_, List.sorted_singleton _⟩
        intro b hb
        have := List.mem_singleton.mp hb; omega
      · intro x
        rw [hdays]
        simp only [List.mem_cons, List.mem_singleton, List.not_mem_nil,
          Finset.mem_insert, Finset.mem_singleton]
        tauto
    simp only [getUserStreak, hisEmpty, Bool.false_eq_true, if_false, hs]
    rw [if_neg (by omega)]
    simp only [countStreak]
    split_ifs <;> omega

/-! ## Week window (`getUserWeeklyReport` walk selection) -/

/-- The week window is exactly seven days: its inclusive end is the last
millisecond of the Saturday six days after the Sunday `startOfWeek`. -/
lemma endOfWeek_startOfWeek (t : Int) :
    endOfWeek (startOfWeek t) = startOfWeek t + 7 * msPerDay - 1 := by
  simp only [endOfWeek, startOfWeek, getDay, epochDay, msPerDay]
  generalize t / 86400000 = e
  generalize hd : (e + 4) % 7 = d
  have hc : (e - d) * 86400000 / 86400000 = e - d :=
    Int.mul_ediv_cancel _ (by norm_num)
  rw [hc]
  omega

/-- Claim C4 (week-window exactness): a walk dated exactly at `weekStart`
(Sunday 00:00:00.000) is selected, one millisecond before is not, a walk
dated exactly at `weekEnd` (Saturday 23:59:59.999) is selected, one
millisecond after is not; and `weekEnd` is the last millisecond of the
fixed 7-day Sunday-through-Saturday window. -/
theorem week_window_exactness (walks : List Walk) (anchor : Int) (w : Walk)
    (hw : w ∈ walks) :
    (w.date = startOfWeek anchor → w ∈ selectWeekWalks walks anchor) ∧
    (w.date = startOfWeek anchor - 1 → w ∉ selectWeekWalks walks anchor) ∧
    (w.date = endOfWeek (startOfWeek anchor) → w ∈ selectWeekWalks walks anchor) ∧
    (w.date = endOfWeek (startOfWeek anchor) + 1 → w ∉ selectWeekWalks walks anchor) ∧
    endOfWeek (startOfWeek anchor) = startOfWeek anchor + 7 * msPerDay - 1 := by
  have hwk := endOfWeek_startOfWeek anchor
  have hms : msPerDay = 86400000 := rfl
  refine ⟨?_, ?_, ?_, ?_, hwk⟩
  · intro hd
    simp only [selectWeekWalks, List.mem_filter, decide_eq_true_eq]
    exact ⟨hw, by omega, by omega⟩
  · intro hd hmem
    simp only [selectWeekWalks, List.mem_filter, decide_eq_true_eq] at hmem
    omega
  · intro hd
    simp only [selectWeekWalks, List.mem_filter, decide_eq_true_eq]
    exact ⟨hw, by omega, by omega⟩
  · intro hd hmem
    simp only [selectWeekWalks, List.mem_filter, decide_eq_true_eq] at hmem
    omega

/-! ### The weekly report's goal flag -/

/-- Accumulating a walk adds its steps to the bucket, on every branch of
the goal check. -/
lemma addWalkToBucket_steps (user : User) (b : DayBucket) (w : Walk) :
    (addWalkToBucket user b w).steps = b.steps + w.steps := by
  simp only [addWalkToBucket]
  split_ifs <;> rfl

/-- Accumulating a walk adds its distance to the bucket, on every branch
of the goal check. -/
lemma addWalkToBucket_distance (user : User) (b : DayBucket) (w : Walk) :
    (addWalkToBucket user b w).distance = b.distance + w.distance := by
  simp only [addWalkToBucket]
  split_ifs <;> rfl

/-- One accumulation step preserves the invariant "`goalMet` holds iff
the running total has reached the goal", provided the walk's metrics are
non-negative (so the running totals never decrease). -/
lemma addWalkToBucket_goalMet (user : User) (b : DayBucket) (w : Walk)
    (hws : 0 ≤ w.steps) (hwd : 0 ≤ w.distance)
    (hb : b.goalMet = true ↔
      (user.goalType = "steps" ∧ user.goalValue ≤ b.steps) ∨
      (user.goalType = "distance" ∧ user.goalValue ≤ b.distance)) :
    (addWalkToBucket user b w).goalMet = true ↔
      (user.goalType = "steps" ∧
        user.goalValue ≤ (addWalkToBucket user b w).steps) ∨
      (user.goalType = "distance" ∧
        user.goalValue ≤ (addWalkToBucket user b w).distance) := by
  rw [addWalkToBucket_steps, addWalkToBucket_distance]
  simp only [addWalkToBucket]
  split_ifs with h1 h2
  · simpa using Or.inl h1
  · simpa using Or.inr h2
  · simp only []
    rw [hb]
    constructor
    · rintro (⟨hgt, hle⟩ | ⟨hgt, hle⟩)
      · exact absurd ⟨hgt, le_trans hle (by linarith)⟩ h1
      · exact absurd ⟨hgt, le_trans hle (by linarith)⟩ h2
    · rintro (⟨hgt, hle⟩ | ⟨hgt, hle⟩)
      · exact absurd ⟨hgt, hle⟩ h1
      · exact absurd ⟨hgt, hle⟩ h2

/-- The accumulation loop preserves the goal-flag invariant for every
bucket. -/
lemma processWalks_goalMet (user : User) (keys : List Int) :
    ∀ (walks : List Walk) (daily : Int → DayBucket),
      (∀ w ∈ walks, 0 ≤ w.steps ∧ 0 ≤ w.distance) →
      (∀ d, ((daily d).goalMet = true ↔
        (user.goalType = "steps" ∧ user.goalValue ≤ (daily d).steps) ∨
        (user.goalType = "distance" ∧ user.goalValue ≤ (daily d).distance))) →
      ∀ d, ((processWalks user keys walks daily d).goalMet = true ↔
        (user.goalType = "steps" ∧
          user.goalValue ≤ (processWalks user keys walks daily d).steps) ∨
        (user.goalType = "distance" ∧
          user.goalValue ≤ (processWalks user keys walks daily d).distance)) := by
  intro walks
  induction walks with
  | nil =>
      intro daily _ hdaily d
      simpa [processWalks] using hdaily d
  | cons w rest ih =>
      intro daily hnn hdaily d
      have hw := hnn w (List.mem_cons_self w rest)
      have hrest : ∀ x ∈ rest, 0 ≤ x.steps ∧ 0 ≤ x.distance :=
        fun x hx => hnn x (List.mem_cons_of_mem w hx)
      show ((processWalks user keys (w :: rest) daily d).goalMet = true ↔ _)
      simp only [processWalks, List.foldl_cons]
      apply ih _ hrest
      intro d'
      by_cases hk : formatDateToYYYYMMDD w.date ∈ keys
      · simp only [hk, if_true]
        by_cases hdk : d' = formatDateToYYYYMMDD w.date
        · simp only [hdk, if_pos rfl]
          exact addWalkToBucket_goalMet user _ w hw.1 hw.2 (hdaily _)
        · simp only [if_neg hdk]
          exact hdaily d'
      · simp only [hk, if_false]
        exact hdaily d'

/-- Claim C3 (goal-met threshold semantics): in every weekly report built
with a positive goal from walks with non-negative metrics, each day
bucket's final `goalMet` is true exactly when its fully accumulated total
for the goal's metric has reached `goalValue`, even though the check runs
incrementally inside the accumulation loop. -/
theorem weekly_goalMet_threshold (user : User) (walks : List Walk)
    (anchor : Int) (hgv : 0 < user.goalValue)
    (hnn : ∀ w ∈ walks, 0 ≤ w.steps ∧ 0 ≤ w.distance) :
    ∀ b ∈ (getUserWeeklyReport user walks anchor).dailyData,
      (user.goalType = "steps" →
        (b.goalMet = true ↔ user.goalValue ≤ b.steps)) ∧
      (user.goalType = "distance" →
        (b.goalMet = true ↔ user.goalValue ≤ b.distance)) := by
  intro b hb
  simp only [getUserWeeklyReport, List.mem_map] at hb
  obtain ⟨d, hd, rfl⟩ := hb
  have hsel : ∀ w ∈ selectWeekWalks walks anchor, 0 ≤ w.steps ∧ 0 ≤ w.distance :=
    fun w hw => hnn w (List.mem_of_mem_filter hw)
  have hinit : ∀ d',
      (((⟨d', 0, 0, 0, false⟩ : DayBucket).goalMet = true) ↔
        (user.goalType = "steps" ∧
          user.goalValue ≤ (⟨d', 0, 0, 0, false⟩ : DayBucket).steps) ∨
        (user.goalType = "distance" ∧
          user.goalValue ≤ (⟨d', 0, 0, 0, false⟩ : DayBucket).distance)) := by
    intro d'
    simp only [Bool.false_eq_true, false_iff]
    rintro (⟨_, hle⟩ | ⟨_, hle⟩) <;> exact absurd hle (by linarith)
  have hinv := processWalks_goalMet user (weekDayKeys (startOfWeek anchor))
    (selectWeekWalks walks anchor) (fun d' => ⟨d', 0, 0, 0, false⟩) hsel hinit d
  constructor
  · intro hgt
    rw [hinv]
    have hne : user.goalType ≠ "distance" := by rw [hgt]; decide
    constructor
    · rintro (⟨_, hle⟩ | ⟨hgd, _⟩)
      · exact hle
      · exact absurd hgd hne
    · intro hle
      exact Or.inl ⟨hgt, hle⟩
  · intro hgt
    rw [hinv]
    have hne : user.goalType ≠ "steps" := by rw [hgt]; decide
    constructor
    · rintro (⟨hgd, _⟩ | ⟨_, hle⟩)
      · exact absurd hgd hne
      · exact hle
    · intro hle
      exact Or.inr ⟨hgt, hle⟩

/-- Witness for the goal-met threshold theorem at a concrete input: in
the report for a user with a 10000-step goal and two 5000-step walks on
the week's Sunday (epoch day 3, anchor epoch day 4), the report's first
bucket has `goalMet` true exactly when its accumulated steps reach the
10000-step goal. -/
theorem weekly_goalMet_threshold_witness :
    ((getUserWeeklyReport ⟨"u1", "Ada", "steps", 10000⟩
        [walkOnDay "a" 3, walkOnDay "b" 3]
        (4 * 86400000)).dailyData.head!.goalMet = true ↔
      (⟨"u1", "Ada", "steps", 10000⟩ : User).goalValue ≤
        (getUserWeeklyReport ⟨"u1", "Ada", "steps", 10000⟩
          [walkOnDay "a" 3, walkOnDay "b" 3]
          (4 * 86400000)).dailyData.head!.steps) :=
  (weekly_goalMet_threshold ⟨"u1", "Ada", "steps", 10000⟩
    [walkOnDay "a" 3, walkOnDay "b" 3] (4 * 86400000)
    (by norm_num)
    (by intro w hw; fin_cases hw <;> constructor <;> norm_num [walkOnDay])
    _ (List.head!_mem_self (by decide))).1 rfl

/-- Witness for the grace-period theorem at concrete inputs: one walk on
day 4 with reference day 5 ("yesterday") keeps the streak nonzero; one
walk on day 3 ("two days ago") resets it to 0. -/
theorem streak_grace_period_witness :
    getUserStreak [walkOnDay "a" 4] 5 ≠ 0 ∧
    getUserStreak [walkOnDay "b" 3] 5 = 0 :=
  ⟨(streak_grace_period [walkOnDay "a" 4] 5).1 (by decide) (by decide) (by decide),
   (streak_grace_period [walkOnDay "b" 3] 5).2 (by decide) (by decide)⟩

/-- Witness for the consecutive-chain theorem at concrete inputs: walks
on days 5, 4, 3 with reference day 5 give streak 3; walks on days 5 and 3
give streak 1. -/
theorem streak_consecutive_chain_witness :
    getUserStreak [walkOnDay "a" 5, walkOnDay "b" 4, walkOnDay "c" 3] 5 = 3 ∧
    getUserStreak [walkOnDay "d" 5, walkOnDay "e" 3] 5 = 1 :=
  ⟨(streak_consecutive_chain [walkOnDay "a" 5, walkOnDay "b" 4, walkOnDay "c" 3] 5).1
      (by decide),
   (streak_consecutive_chain [walkOnDay "d" 5, walkOnDay "e" 3] 5).2 (by decide)⟩

/-- Witness for the same-day deduplication theorem at a concrete input:
adding a second walk on day 5 leaves the streak unchanged. -/
theorem streak_same_day_dedupe_witness :
    getUserStreak ([walkOnDay "a" 5, walkOnDay "b" 4] ++ [walkOnDay "c" 5]) 5 =
      getUserStreak [walkOnDay "a" 5, walkOnDay "b" 4] 5 :=
  streak_same_day_dedupe [walkOnDay "a" 5, walkOnDay "b" 4] (walkOnDay "c" 5) 5
    (by decide)

/-- Witness for the future-dated-walk theorem at a concrete input: a walk
on day 7 with reference day 5 yields a streak of at least 1. -/
theorem streak_future_walk_witness :
    1 ≤ getUserStreak [walkOnDay "a" 7] 5 :=
  streak_future_walk [walkOnDay "a" 7] 5 (by decide)

/-- Witness for the week-window theorem at concrete inputs: with the
anchor at epoch day 4 (a Monday), the week starts at day 3 (Sunday);
walks at the window's first and last millisecond are selected, and walks
one millisecond outside on either side are not. -/
theorem week_window_exactness_witness :
    walkAtMs "s" (3 * 86400000) ∈
      selectWeekWalks [walkAtMs "s" (3 * 86400000)] (4 * 86400000) ∧
    walkAtMs "p" (3 * 86400000 - 1) ∉
      selectWeekWalks [walkAtMs "p" (3 * 86400000 - 1)] (4 * 86400000) ∧
    walkAtMs "e" (10 * 86400000 - 1) ∈
      selectWeekWalks [walkAtMs "e" (10 * 86400000 - 1)] (4 * 86400000) ∧
    walkAtMs "q" (10 * 86400000) ∉
      selectWeekWalks [walkAtMs "q" (10 * 86400000)] (4 * 86400000) :=
  ⟨(week_window_exactness [walkAtMs "s" (3 * 86400000)] (4 * 86400000)
      (walkAtMs "s" (3 * 86400000)) (by decide)).1 (by decide),
   (week_window_exactness [walkAtMs "p" (3 * 86400000 - 1)] (4 * 86400000)
      (walkAtMs "p" (3 * 86400000 - 1)) (by decide)).2.1 (by decide),
   (week_window_exactness [walkAtMs "e" (10 * 86400000 - 1)] (4 * 86400000)
      (walkAtMs "e" (10 * 86400000 - 1)) (by decide)).2.2.1 (by decide),
   (week_window_exactness [walkAtMs "q" (10 * 86400000)] (4 * 86400000)
      (walkAtMs "q" (10 * 86400000)) (by decide)).2.2.2.1 (by decide)⟩

/-! ### Aggregate stats -/

/-- Counterexample to claim C6 as stated: with walks of 1 and 2 steps in
range, `totalSteps / totalWalks = 3/2` but `averageStepsPerWalk` is the
rounded value 2, so the average is not the plain quotient. -/
theorem stats_plain_mean_counterexample :
    ¬ ((getWalkStats [⟨"x", 1, 1, 1, 0, "u"⟩, ⟨"y", 2, 1, 1, 0, "u"⟩]
          0 86400000).averageStepsPerWalk =
        (getWalkStats [⟨"x", 1, 1, 1, 0, "u"⟩, ⟨"y", 2, 1, 1, 0, "u"⟩]
          0 86400000).totalSteps /
        ((getWalkStats [⟨"x", 1, 1, 1, 0, "u"⟩, ⟨"y", 2, 1, 1, 0, "u"⟩]
          0 86400000).totalWalks : ℚ)) := by
  have hsel : getWalksByDateRange
      [⟨"x", 1, 1, 1, 0, "u"⟩, ⟨"y", 2, 1, 1, 0, "u"⟩] 0 86400000 =
      [⟨"x", 1, 1, 1, 0, "u"⟩, ⟨"y", 2, 1, 1, 0, "u"⟩] := by decide
  simp only [getWalkStats, hsel]
  norm_num [jsRound, ratFloor]

/-- Claim C6 amended: `getWalkStats` returns each average as the rounded
arithmetic mean — `Math.round(total/count)` for steps and duration,
`Number((total/count).toFixed(2))` for distance — and all averages (and
totals) are 0 when the range contains no walks. -/
theorem stats_averages_rounded (allWalks : List Walk) (start finish : Int) :
    (getWalksByDateRange allWalks start finish = [] →
      (getWalkStats allWalks start finish).totalWalks = 0 ∧
      (getWalkStats allWalks start finish).totalSteps = 0 ∧
      (getWalkStats allWalks start finish).averageStepsPerWalk = 0 ∧
      (getWalkStats allWalks start finish).averageDistancePerWalk = 0 ∧
      (getWalkStats allWalks start finish).averageDurationPerWalk = 0) ∧
    (getWalksByDateRange allWalks start finish ≠ [] →
      (getWalkStats allWalks start finish).totalWalks =
        (getWalksByDateRange allWalks start finish).length ∧
      (getWalkStats allWalks start finish).totalSteps =
        ((getWalksByDateRange allWalks start finish).map Walk.steps).sum ∧
      (getWalkStats allWalks start finish).averageStepsPerWalk =
        (jsRound ((getWalkStats allWalks start finish).totalSteps /
          ((getWalkStats allWalks start finish).totalWalks : ℚ)) : ℚ) ∧
      (getWalkStats allWalks start finish).averageDistancePerWalk =
        toFixed2 ((getWalkStats allWalks start finish).totalDistance /
          ((getWalkStats allWalks start finish).totalWalks : ℚ)) ∧
      (getWalkStats allWalks start finish).averageDurationPerWalk =
        (jsRound ((getWalkStats allWalks start finish).totalDuration /
          ((getWalkStats allWalks start finish).totalWalks : ℚ)) : ℚ)) := by
  constructor
  · intro hempty
    simp [getWalkStats, hempty]
  · intro hne
    have hlen : 0 < (getWalksByDateRange allWalks start finish).length :=
      List.length_pos.mpr hne
    simp only [getWalkStats, if_pos hlen]
    exact ⟨trivial, trivial, trivial, trivial, trivial⟩

/-- Witness for the amended stats theorem at concrete inputs: the empty
range gives zeros, and the 1-step/2-step pair gives the rounded means. -/
theorem stats_averages_rounded_witness :
    ((getWalkStats [] 0 86400000).totalWalks = 0 ∧
      (getWalkStats [] 0 86400000).totalSteps = 0 ∧
      (getWalkStats [] 0 86400000).averageStepsPerWalk = 0 ∧
      (getWalkStats [] 0 86400000).averageDistancePerWalk = 0 ∧
      (getWalkStats [] 0 86400000).averageDurationPerWalk = 0) ∧
    ((getWalkStats [⟨"x", 1, 1, 1, 0, "u"⟩, ⟨"y", 2, 1, 1, 0, "u"⟩]
        0 86400000).averageStepsPerWalk =
      (jsRound ((getWalkStats [⟨"x", 1, 1, 1, 0, "u"⟩, ⟨"y", 2, 1, 1, 0, "u"⟩]
          0 86400000).totalSteps /
        ((getWalkStats [⟨"x", 1, 1, 1, 0, "u"⟩, ⟨"y", 2, 1, 1, 0, "u"⟩]
          0 86400000).totalWalks : ℚ)) : ℚ)) :=
  ⟨(stats_averages_rounded [] 0 86400000).1 (by decide),
   ((stats_averages_rounded [⟨"x", 1, 1, 1, 0, "u"⟩, ⟨"y", 2, 1, 1, 0, "u"⟩]
      0 86400000).2 (by decide)).2.2.1⟩

/-! ### Walk creation against a missing owner -/

/-- Claim C7 (atomic failure on a missing owner): when the requested
`userId` matches no user, the walk-creation path responds with the
404-equivalent `User not found` and leaves the store untouched. -/
theorem createWalk_missing_user (s : Store) (req : CreateWalkRequest)
    (newId : String) (h : getUserById s req.userId = none) :
    (createWalk s req newId).1 = CreateWalkResponse.notFound ∧
    (createWalk s req newId).1.status = 404 ∧
    (createWalk s req newId).2 = s := by
  simp [createWalk, h, CreateWalkResponse.status]

/-- Witness for the missing-owner theorem at a concrete input: an empty
store rejects a creation request for user `u9` and is left unchanged. -/
theorem createWalk_missing_user_witness :
    (createWalk ⟨[], []⟩ ⟨"u9", 1, 1, 1, 0⟩ "w1").1 =
      CreateWalkResponse.notFound ∧
    (createWalk ⟨[], []⟩ ⟨"u9", 1, 1, 1, 0⟩ "w1").1.status = 404 ∧
    (createWalk ⟨[], []⟩ ⟨"u9", 1, 1, 1, 0⟩ "w1").2 = (⟨[], []⟩ : Store) :=
  createWalk_missing_user ⟨[], []⟩ ⟨"u9", 1, 1, 1, 0⟩ "w1" (by decide)

/-! ### Validation accumulates every failing field -/

/-- Claim C8 (validation reports every failing field): whenever any rule
field fails its checks, `validateRequest` rejects with a 400-equivalent
error list containing that field's errors — for every failing field, not
just the first. -/
theorem validation_reports_every_field (rules : List (String × FieldRule))
    (data : String → JSValue) (field : String) (rule : FieldRule)
    (hmem : (field, rule) ∈ rules)
    (hfail : fieldErrors field rule (data field) ≠ []) :
    ∃ errs, validateRequest rules data = Except.error errs ∧
      ∀ e ∈ fieldErrors field rule (data field), e ∈ errs := by
  refine ⟨rules.flatMap (fun fr => fieldErrors fr.1 fr.2 (data fr.1)), ?_, ?_⟩
  · have hne : rules.flatMap (fun fr => fieldErrors fr.1 fr.2 (data fr.1)) ≠ [] := by
      obtain ⟨e, he⟩ := List.exists_mem_of_ne_nil _ hfail
      intro hnil
      have hmem' : e ∈ rules.flatMap (fun fr => fieldErrors fr.1 fr.2 (data fr.1)) :=
        List.mem_flatMap.mpr ⟨(field, rule), hmem, he⟩
      rw [hnil] at hmem'
      exact List.not_mem_nil e hmem'
    simp only [validateRequest]
    rw [if_neg (by simpa [List.isEmpty_iff] using hne)]
  · intro e he
    exact List.mem_flatMap.mpr ⟨(field, rule), hmem, he⟩

/-- Witness for the validation theorem at a concrete input: against the
walk-creation rules, a body with negative `steps` and an unparseable
`date` is rejected, and the error list contains both the `steps` error
and, separately, the `date` error. -/
theorem validation_reports_every_field_witness :
    (∃ errs, validateRequest createWalkRules badWalkRequestData =
        Except.error errs ∧
      ∀ e ∈ fieldErrors "steps" ⟨true, some "number", some 0, none⟩
          (badWalkRequestData "steps"), e ∈ errs) ∧
    (∃ errs, validateRequest createWalkRules badWalkRequestData =
        Except.error errs ∧
      ∀ e ∈ fieldErrors "date" ⟨true, some "date", none, none⟩
          (badWalkRequestData "date"), e ∈ errs) :=
  ⟨validation_reports_every_field createWalkRules badWalkRequestData
      "steps" ⟨true, some "number", some 0, none⟩ (by decide) (by decide),
   validation_reports_every_field createWalkRules badWalkRequestData
      "date" ⟨true, some "date", none, none⟩ (by decide) (by decide)⟩

/-! ### User-creation goal defaults -/

/-- Counterexample to claim C10's universal conclusion: an explicitly
supplied negative `goalValue` (-5) is truthy, so it is stored as-is and
the created user does not satisfy `goalValue > 0`. -/
theorem createUser_positive_goal_counterexample :
    ¬ (0 < (createUser ⟨"Ada", none, some (-5)⟩ "u1").goalValue) := by
  decide

/-- Claim C10 amended: `createUser` defaults `goalType` to `steps` when
omitted and `goalValue` to 10000 when omitted; a supplied `goalValue` of
0 is also replaced by 10000 (falsy-or), so the stored `goalValue` is
never 0 and every user created with an omitted or non-negative requested
`goalValue` satisfies `goalValue > 0` — but a negative requested value is
stored unchanged. -/
theorem createUser_goal_defaults (d : CreateUserData) (newId : String) :
    (d.goalType = none → (createUser d newId).goalType = "steps") ∧
    (d.goalValue = none → (createUser d newId).goalValue = 10000) ∧
    (d.goalValue = some 0 → (createUser d newId).goalValue = 10000) ∧
    (∀ v, d.goalValue = some v → 0 ≤ v →
      0 < (createUser d newId).goalValue) ∧
    (createUser d newId).goalValue ≠ 0 := by
  refine ⟨?_, ?_, ?_, ?_, ?_⟩
  · intro h
    simp [createUser, h]
  · intro h
    simp [createUser, h]
  · intro h
    simp [createUser, h]
  · intro v hv hge
    simp only [createUser, hv]
    split_ifs with h0
    · norm_num
    · exact lt_of_le_of_ne hge (Ne.symm h0)
  · cases hgv : d.goalValue with
    | none =>
        simp [createUser, hgv]
    | some v =>
        simp only [createUser, hgv]
        split_ifs with h0
        · norm_num
        · exact h0

/-- Witness for the user-creation defaults theorem at concrete inputs:
omitted fields default to `steps`/10000, a supplied 0 becomes 10000, and
a supplied positive value yields a positive stored goal. -/
theorem createUser_goal_defaults_witness :
    (createUser ⟨"Ada", none, none⟩ "u1").goalType = "steps" ∧
    (createUser ⟨"Ada", none, none⟩ "u1").goalValue = 10000 ∧
    (createUser ⟨"Bea", some "distance", some 0⟩ "u2").goalValue = 10000 ∧
    0 < (createUser ⟨"Cal", none, some 5⟩ "u3").goalValue :=
  ⟨(createUser_goal_defaults ⟨"Ada", none, none⟩ "u1").1 rfl,
   (createUser_goal_defaults ⟨"Ada", none, none⟩ "u1").2.1 rfl,
   (createUser_goal_defaults ⟨"Bea", some "distance", some 0⟩ "u2").2.2.1 rfl,
   (createUser_goal_defaults ⟨"Cal", none, some 5⟩ "u3").2.2.2.1 5 rfl
     (by norm_num)⟩

end WalkMate
